import Mathlib

/-
Verification of the UEFI chain loader (loader/src/images.rs and
loader/src/main.rs).

The loader is shallowly embedded: every interaction with the UEFI platform
(protocol opens, file opens, device-path building, image load or start,
console key reads) is represented by an environment record that fixes the
outcome the platform would return, and the loader functions are translated
as pure Lean functions over those environments.  Machine-word arithmetic in
the translated region only adds small counters that stay far below any
overflow bound, so Nat is used directly.
-/

/-- PathNode models one node of a UEFI device path.  Existing routing nodes
of a device are opaque and carried as numeric identifiers; the terminal
media file-path node built by `DevicePathBuilder` carries the file name. -/
inductive PathNode where
  | node (id : Nat)
  | filePath (name : String)
deriving DecidableEq, Repr

/-- RoutablePath models `Box<DevicePath>`: the ordered node sequence. -/
def RoutablePath : Type := List PathNode
deriving DecidableEq, Repr

/-- BootTarget mirrors `images.rs` `struct BootTarget`: the built device
path, the filesystem handle (opaque, modeled as Nat) and the 1-based handle
index recorded as `handle_index: idx1`. -/
structure BootTarget where
  device_path : RoutablePath
  handle : Nat
  handle_index : Nat
deriving DecidableEq, Repr

/-- DeviceEnv fixes the platform outcome of every fallible step of the
per-device probe in `enumerate_device_paths` (images.rs lines 62-118):
whether `open_protocol_exclusive::<SimpleFileSystem>` succeeds, whether
`open_volume` succeeds, whether `root.open(path, Read, READ_ONLY)` succeeds,
the result of `open_protocol_exclusive::<DevicePath>` (the routing nodes of
the device when present), whether every `builder.push(&item)` over those
existing nodes succeeds, and whether the final
`builder.push(&FilePath).ok().and_then(finalize)` succeeds. -/
structure DeviceEnv where
  handle : Nat
  fsOpens : Bool
  volumeOpens : Bool
  fileOpens : Bool
  devicePathCap : Option (List Nat)
  copyNodesOk : Bool
  finalBuildOk : Bool
deriving DecidableEq, Repr

/-- WINDOWS_BOOT_MANAGER_PATH mirrors the constant in images.rs line 22. -/
def WINDOWS_BOOT_MANAGER_PATH : String := "\\EFI\\Microsoft\\Boot\\bootmgfw.efi"

/-- HYPERVISOR_PATH mirrors the constant in images.rs line 23. -/
def HYPERVISOR_PATH : String := "\\EFI\\Boot\\illusion.efi"

/-- probeDevice translates the body of the `for (idx, handle)` loop of
`enumerate_device_paths` for one device.  Result `some none` is a `continue`
(the device is skipped), `some (some t)` pushes a target, and `none` models
a Rust panic: images.rs line 102 folds the existing routing nodes with
`builder.push(&item).unwrap()`, so a push failure there unwinds instead of
skipping.  The fold performs a push only when the node list is nonempty.
The final push of the terminal `FilePath` node and `finalize` (line 104)
are fallible and their failure skips the device. -/
def probeDevice (target : String) (idx1 : Nat) (d : DeviceEnv) :
    Option (Option BootTarget) :=
  if d.fsOpens = false then some none
  else if d.volumeOpens = false then some none
  else if d.fileOpens = false then some none
  else
    match d.devicePathCap with
    | none => some none
    | some nodes =>
      if nodes ≠ [] ∧ d.copyNodesOk = false then none
      else if d.finalBuildOk = false then some none
      else some (some ⟨nodes.map PathNode.node ++ [PathNode.filePath target],
                       d.handle, idx1⟩)

/-- builtPath is the RoutablePath that a successful probe constructs:
every existing routing node copied in order, then the terminal file node. -/
def builtPath (target : String) (d : DeviceEnv) : RoutablePath :=
  (d.devicePathCap.getD []).map PathNode.node ++ [PathNode.filePath target]

/-- deviceMatches holds when the whole probe of the device succeeds and a
BootTarget is recorded for it. -/
def deviceMatches (d : DeviceEnv) : Bool :=
  d.fsOpens && d.volumeOpens && d.fileOpens &&
    (match d.devicePathCap with
     | none => false
     | some nodes => (nodes.isEmpty || d.copyNodesOk) && d.finalBuildOk)

/-- devicePanics holds when the probe reaches the node-copy fold and a push
of an existing node fails, which the source unwraps. -/
def devicePanics (d : DeviceEnv) : Bool :=
  d.fsOpens && d.volumeOpens && d.fileOpens &&
    (match d.devicePathCap with
     | none => false
     | some nodes => !nodes.isEmpty && !d.copyNodesOk)

/-- enumerateLoop translates the `for (idx, handle) in handles.iter()
.enumerate()` loop of `enumerate_device_paths`, with `idx1 = idx + 1`
threaded as the 1-based index of the next device.  A probe panic makes the
whole enumeration result unavailable (`none`). -/
def enumerateLoop (target : String) : List DeviceEnv → Nat → Option (List BootTarget)
  | [], _ => some []
  | d :: rest, idx1 =>
    match probeDevice target idx1 d with
    | none => none
    | some none => enumerateLoop target rest (idx1 + 1)
    | some (some t) => (enumerateLoop target rest (idx1 + 1)).map fun ts => t :: ts

/-- DiscoveryEnv fixes the platform answer to
`locate_handle_buffer(ByProtocol(SimpleFileSystem))`: whether it succeeds,
and the devices behind the returned handles in enumeration order. -/
structure DiscoveryEnv where
  locateOk : Bool
  devices : List DeviceEnv
deriving DecidableEq, Repr

/-- enumerate_device_paths translates images.rs lines 48-127: a failed
handle search returns the empty vector, otherwise each device is probed
once in order and matches are collected. -/
def enumerate_device_paths (target : String) (env : DiscoveryEnv) :
    Option (List BootTarget) :=
  if env.locateOk then enumerateLoop target env.devices 1 else some []

/-- find_device_path translates images.rs line 43-45: the device path of
the first enumerated target, when enumeration completes. -/
def find_device_path (target : String) (env : DiscoveryEnv) :
    Option (Option RoutablePath) :=
  (enumerate_device_paths target env).map fun ts =>
    (ts.map fun t => t.device_path).head?

/-- find_all_windows_boot_managers translates images.rs lines 130-132. -/
def find_all_windows_boot_managers (env : DiscoveryEnv) : Option (List BootTarget) :=
  enumerate_device_paths WINDOWS_BOOT_MANAGER_PATH env

/-- find_windows_boot_manager translates images.rs lines 144-146. -/
def find_windows_boot_manager (env : DiscoveryEnv) : Option (Option RoutablePath) :=
  find_device_path WINDOWS_BOOT_MANAGER_PATH env

/-- find_hypervisor translates images.rs lines 158-160. -/
def find_hypervisor (env : DiscoveryEnv) : Option (Option RoutablePath) :=
  find_device_path HYPERVISOR_PATH env

/-- Key models one decoded key event from `read_key` (main.rs lines
122-141): a printable character, the ESCAPE scan code, or any other
special scan code (the wildcard arm). -/
inductive Key where
  | printable (c : Char)
  | escape
  | special
deriving DecidableEq, Repr

/-- ReadEvent models one result of `system_table.stdin().read_key()`:
`Ok(Some(key))`, `Ok(None)` (no key available this poll), or `Err(_)`. -/
inductive ReadEvent where
  | key (k : Key)
  | noKey
  | readErr
deriving DecidableEq, Repr

/-- SelResult models the outcome of the selection loop: the chosen 0-based
index into the candidate list, or the user abort via ESCAPE which makes
main return Status::ABORTED. -/
inductive SelResult where
  | select (i : Nat)
  | abort
deriving DecidableEq, Repr

/-- charDigit translates Rust `ch.to_digit(10)`: defined exactly on the
ASCII digits 0-9. -/
def charDigit (c : Char) : Option Nat :=
  if 48 ≤ c.toNat ∧ c.toNat ≤ 57 then some (c.toNat - 48) else none

/-- timeoutUs is `timeout_ms * 1000` with `timeout_ms = 5_000`
(main.rs line 115). -/
def timeoutUs : Nat := 5000 * 1000

/-- pollIntervalUs is `poll_interval_us = 10_000` (main.rs line 116). -/
def pollIntervalUs : Nat := 10000

/-- selLoop translates the labeled selection loop sel_loop of main.rs lines
119-156 for a candidate count n, driven by the list of successive
`read_key` results, with `waited` the accumulated `waited_us`.  A digit in
[1, n] breaks with that selection; CR or LF breaks with the default 0; any
other printable or non-ESCAPE special key is ignored; ESCAPE returns abort;
`Ok(None)` breaks with the default once `waited_us >= timeout_ms * 1000`
and otherwise stalls and accumulates; `Err(_)` breaks with the default.
The result is `none` only when the modeled event list is exhausted while
the source loop would keep polling. -/
def selLoop (n : Nat) : List ReadEvent → Nat → Option SelResult
  | [], _ => none
  | ReadEvent.key (Key.printable c) :: rest, waited =>
    match charDigit c with
    | some d =>
      if 1 ≤ d ∧ d ≤ n then some (SelResult.select (d - 1))
      else selLoop n rest waited
    | none =>
      if c = '\r' ∨ c = '\n' then some (SelResult.select 0)
      else selLoop n rest waited
  | ReadEvent.key Key.escape :: _, _ => some SelResult.abort
  | ReadEvent.key Key.special :: rest, waited => selLoop n rest waited
  | ReadEvent.noKey :: rest, waited =>
    if timeoutUs ≤ waited then some (SelResult.select 0)
    else selLoop n rest (waited + pollIntervalUs)
  | ReadEvent.readErr :: _, _ => some (SelResult.select 0)

/-- resolveSel models candidate resolution in main.rs lines 82-161: a
single candidate is chosen immediately without reading input, otherwise
the selection loop runs from `waited_us = 0`. -/
def resolveSel (n : Nat) (events : List ReadEvent) : Option SelResult :=
  if n = 1 then some (SelResult.select 0) else selLoop n events 0

/-- Status models the two terminal `uefi::Status` values main returns. -/
inductive Status where
  | success
  | aborted
deriving DecidableEq, Repr

/-- SysEnv fixes every platform outcome main observes: helper
initialization, the discovery environments seen by the hypervisor search
and by the boot-manager search, the console event stream, and the results
of the four load_image / start_image calls. -/
structure SysEnv where
  initOk : Bool
  hvDisc : DiscoveryEnv
  bmDisc : DiscoveryEnv
  events : List ReadEvent
  hvLoadOk : Bool
  hvStartOk : Bool
  bmLoadOk : Bool
  bmStartOk : Bool
deriving DecidableEq, Repr

/-- MainOutcome records the observable behavior of one run of main: the
returned status, how many times load_image and start_image were invoked
for each stage, the device path passed to each load_image call when one
happened, and the selected boot-manager candidate index. -/
structure MainOutcome where
  status : Status
  hvLoadCalls : Nat
  hvStartCalls : Nat
  bmLoadCalls : Nat
  bmStartCalls : Nat
  hvLoaded : Option RoutablePath
  bmLoaded : Option RoutablePath
  selectedIdx : Option Nat
deriving DecidableEq, Repr

/-- runMain translates main.rs lines 15-190.  Failures of
`uefi::helpers::init`, a missing hypervisor, a failed hypervisor load or
start, an empty boot-manager candidate list, a user abort, and a failed
boot-manager load or start all return Status::ABORTED; only a boot manager
that starts and returns reaches Status::SUCCESS.  The LoadedImage metadata
query after the hypervisor load is best-effort logging and does not affect
the outcome, the stdin reset result is discarded, and the 3-second stall
before the handoff changes no recorded observable, so none of the three
appears in the outcome.  Result `none` means the model could not finish:
an enumeration panic or an exhausted event list. -/
def runMain (env : SysEnv) : Option MainOutcome :=
  if env.initOk then
    match find_hypervisor env.hvDisc with
    | none => none
    | some none => some ⟨Status.aborted, 0, 0, 0, 0, none, none, none⟩
    | some (some hvPath) =>
      if env.hvLoadOk then
        if env.hvStartOk then
          match find_all_windows_boot_managers env.bmDisc with
          | none => none
          | some cands =>
            if cands.isEmpty then
              some ⟨Status.aborted, 1, 1, 0, 0, some hvPath, none, none⟩
            else
              match resolveSel cands.length env.events with
              | none => none
              | some SelResult.abort =>
                some ⟨Status.aborted, 1, 1, 0, 0, some hvPath, none, none⟩
              | some (SelResult.select i) =>
                let bmPath := (cands[i]?).map fun t => t.device_path
                if env.bmLoadOk then
                  if env.bmStartOk then
                    some ⟨Status.success, 1, 1, 1, 1, some hvPath, bmPath, some i⟩
                  else
                    some ⟨Status.aborted, 1, 1, 1, 1, some hvPath, bmPath, some i⟩
                else
                  some ⟨Status.aborted, 1, 1, 1, 0, some hvPath, bmPath, some i⟩
        else some ⟨Status.aborted, 1, 1, 0, 0, some hvPath, none, none⟩
      else some ⟨Status.aborted, 1, 0, 0, 0, some hvPath, none, none⟩
  else some ⟨Status.aborted, 0, 0, 0, 0, none, none, none⟩

/-- ignoredKey marks the key events the selection loop ignores: any
non-ESCAPE special key, a digit outside [1, n], and any non-digit
printable other than CR and LF. -/
def ignoredKey (n : Nat) (e : ReadEvent) : Bool :=
  match e with
  | ReadEvent.key (Key.printable c) =>
    match charDigit c with
    | some d => decide (¬ (1 ≤ d ∧ d ≤ n))
    | none => decide (c ≠ '\r' ∧ c ≠ '\n')
  | ReadEvent.key Key.special => true
  | _ => false

/-- nonDeciding marks read results that never terminate the loop by
themselves: ignored keys and a no-key poll result. -/
def nonDeciding (n : Nat) (e : ReadEvent) : Bool :=
  ignoredKey n e || decide (e = ReadEvent.noKey)

/-- noKeyCount counts the no-key poll results in an event list. -/
def noKeyCount : List ReadEvent → Nat
  | [] => 0
  | ReadEvent.noKey :: rest => noKeyCount rest + 1
  | _ :: rest => noKeyCount rest

/-- enumerateLoopLog is enumerateLoop instrumented with the list of 1-based
device indices the loop body runs for, in order; a panic stops the loop at
the offending device exactly as the source unwinds there. -/
def enumerateLoopLog (target : String) :
    List DeviceEnv → Nat → Option (List BootTarget) × List Nat
  | [], _ => (some [], [])
  | d :: rest, idx1 =>
    match probeDevice target idx1 d with
    | none => (none, [idx1])
    | some none =>
      ((enumerateLoopLog target rest (idx1 + 1)).1,
       idx1 :: (enumerateLoopLog target rest (idx1 + 1)).2)
    | some (some t) =>
      ((enumerateLoopLog target rest (idx1 + 1)).1.map fun ts => t :: ts,
       idx1 :: (enumerateLoopLog target rest (idx1 + 1)).2)

/-- enumerate_device_paths_log is enumerate_device_paths together with the
probe log; a failed handle search probes no device at all. -/
def enumerate_device_paths_log (target : String) (env : DiscoveryEnv) :
    Option (List BootTarget) × List Nat :=
  if env.locateOk then enumerateLoopLog target env.devices 1 else (some [], [])

/-- devGood is a concrete device on which every probe step succeeds. -/
def devGood : DeviceEnv := ⟨7, true, true, true, some [1, 2], true, true⟩

/-- devTwo is a second fully succeeding concrete device whose existing
routing path has no nodes. -/
def devTwo : DeviceEnv := ⟨11, true, true, true, some [], true, true⟩

/-- devNoFile is a concrete device whose filesystem opens but on which the
target file open fails. -/
def devNoFile : DeviceEnv := ⟨8, true, true, false, some [3], true, true⟩

/-- devCopyFail is a concrete device on which the push of an existing
routing node fails, hitting the unwrap in images.rs line 102. -/
def devCopyFail : DeviceEnv := ⟨9, true, true, true, some [4], false, true⟩

/-- devNoFinal is a concrete device on which only the terminal file-path
push or the finalize fails. -/
def devNoFinal : DeviceEnv := ⟨10, true, true, true, some [5], true, false⟩

theorem probeDevice_eq (target : String) (idx1 : Nat) (d : DeviceEnv) :
    probeDevice target idx1 d =
      if devicePanics d then none
      else if deviceMatches d then some (some ⟨builtPath target d, d.handle, idx1⟩)
      else some none := by
  rcases d with ⟨h, fs, vol, file, cap, copy, fin⟩
  cases fs <;> cases vol <;> cases file <;> cases cap <;>
    simp only [probeDevice, deviceMatches, devicePanics, builtPath] <;>
    try simp
  case some nodes =>
    cases nodes <;> cases copy <;> cases fin <;>
      simp [List.isEmpty_cons, List.isEmpty_nil]

theorem selLoop_cons_ignored (n : Nat) (e : ReadEvent) (evs : List ReadEvent)
    (w : Nat) (h : ignoredKey n e = true) :
    selLoop n (e :: evs) w = selLoop n evs w := by
  cases e with
  | key k =>
    cases k with
    | printable c =>
      cases hd : charDigit c with
      | some d =>
        simp only [ignoredKey, hd, decide_eq_true_eq] at h
        simp [selLoop, hd, h]
      | none =>
        simp only [ignoredKey, hd, decide_eq_true_eq] at h
        simp [selLoop, hd, h.1, h.2]
    | escape => simp [ignoredKey] at h
    | special => simp [selLoop]
  | noKey => simp [ignoredKey] at h
  | readErr => simp [ignoredKey] at h

theorem selLoop_cons_noKey (n : Nat) (evs : List ReadEvent) (w : Nat)
    (h : w < timeoutUs) :
    selLoop n (ReadEvent.noKey :: evs) w = selLoop n evs (w + pollIntervalUs) := by
  simp only [selLoop]
  rw [if_neg (by omega)]

theorem selLoop_cons_noKey_timeout (n : Nat) (evs : List ReadEvent) (w : Nat)
    (h : timeoutUs ≤ w) :
    selLoop n (ReadEvent.noKey :: evs) w = some (SelResult.select 0) := by
  simp [selLoop, h]

theorem selLoop_append_nonDeciding (n : Nat) (pre : List ReadEvent) :
    ∀ (evs : List ReadEvent) (w : Nat),
      (∀ e ∈ pre, nonDeciding n e = true) →
      w + pollIntervalUs * noKeyCount pre ≤ timeoutUs →
      selLoop n (pre ++ evs) w
        = selLoop n evs (w + pollIntervalUs * noKeyCount pre) := by
  induction pre with
  | nil => intro evs w _ _; simp [noKeyCount]
  | cons e pre ih =>
    intro evs w h hw
    have he : nonDeciding n e = true := h e (List.mem_cons_self e pre)
    have hrest : ∀ x ∈ pre, nonDeciding n x = true := fun x hx =>
      h x (List.mem_cons_of_mem e hx)
    by_cases hek : e = ReadEvent.noKey
    · subst hek
      have hcnt : noKeyCount (ReadEvent.noKey :: pre) = noKeyCount pre + 1 := rfl
      rw [hcnt, Nat.mul_succ] at hw ⊢
      have hpoll : 0 < pollIntervalUs := by decide
      have hlt : w < timeoutUs := by omega
      rw [List.cons_append, selLoop_cons_noKey n (pre ++ evs) w hlt,
        ih evs (w + pollIntervalUs) hrest (by omega)]
      congr 1
      omega
    · have hik : ignoredKey n e = true := by
        simp only [nonDeciding, Bool.or_eq_true, decide_eq_true_eq] at he
        exact he.resolve_right hek
      have hcnt : noKeyCount (e :: pre) = noKeyCount pre := by
        cases e with
        | key k => rfl
        | noKey => exact absurd rfl hek
        | readErr => rfl
      rw [hcnt] at hw ⊢
      rw [List.cons_append, selLoop_cons_ignored n e (pre ++ evs) w hik]
      exact ih evs w hrest hw

theorem deviceMatches_not_panics (d : DeviceEnv) (h : deviceMatches d = true) :
    devicePanics d = false := by
  rcases d with ⟨hd, fs, vol, file, cap, copy, fin⟩
  cases fs <;> cases vol <;> cases file <;> cases cap <;>
    simp only [deviceMatches, devicePanics] at h ⊢ <;> try simp_all
  case some nodes =>
    cases nodes <;> cases copy <;> cases fin <;> simp_all [List.isEmpty_cons]

theorem enumerateLoop_skip_cons (target : String) (d : DeviceEnv)
    (rest : List DeviceEnv) (idx1 : Nat)
    (hm : deviceMatches d = false) (hp : devicePanics d = false) :
    enumerateLoop target (d :: rest) idx1 = enumerateLoop target rest (idx1 + 1) := by
  simp [enumerateLoop, probeDevice_eq, hm, hp]

theorem enumerateLoop_all_skip (target : String) (devs : List DeviceEnv) :
    ∀ idx1 : Nat,
      (∀ d ∈ devs, deviceMatches d = false ∧ devicePanics d = false) →
      enumerateLoop target devs idx1 = some [] := by
  induction devs with
  | nil => intro idx1 _; rfl
  | cons d devs ih =>
    intro idx1 h
    have hd := h d (List.mem_cons_self d devs)
    rw [enumerateLoop_skip_cons target d devs idx1 hd.1 hd.2]
    exact ih (idx1 + 1) fun x hx => h x (List.mem_cons_of_mem d hx)

theorem enumerateLoop_panic_cons (target : String) (d : DeviceEnv)
    (rest : List DeviceEnv) (idx1 : Nat) (hp : devicePanics d = true) :
    enumerateLoop target (d :: rest) idx1 = none := by
  simp [enumerateLoop, probeDevice_eq, hp]

theorem enumerateLoop_match_cons (target : String) (d : DeviceEnv)
    (rest : List DeviceEnv) (idx1 : Nat)
    (hp : devicePanics d = false) (hm : deviceMatches d = true) :
    enumerateLoop target (d :: rest) idx1
      = (enumerateLoop target rest (idx1 + 1)).map
          (fun ts => (⟨builtPath target d, d.handle, idx1⟩ : BootTarget) :: ts) := by
  simp [enumerateLoop, probeDevice_eq, hp, hm]

theorem mem_enumerateLoop_spec (target : String) (devs : List DeviceEnv) :
    ∀ (idx1 : Nat) (ts : List BootTarget) (t : BootTarget),
      enumerateLoop target devs idx1 = some ts → t ∈ ts →
      ∃ (k : Nat) (d : DeviceEnv), devs[k]? = some d ∧ deviceMatches d = true ∧
        t = ⟨builtPath target d, d.handle, idx1 + k⟩ := by
  induction devs with
  | nil =>
    intro idx1 ts t hts ht
    simp only [enumerateLoop, Option.some.injEq] at hts
    subst hts
    exact absurd ht (List.not_mem_nil t)
  | cons d devs ih =>
    intro idx1 ts t hts ht
    by_cases hp : devicePanics d = true
    · rw [enumerateLoop_panic_cons target d devs idx1 hp] at hts
      exact absurd hts (by simp)
    · have hp2 : devicePanics d = false := by
        simp only [Bool.not_eq_true] at hp
        exact hp
      by_cases hm : deviceMatches d = true
      · rw [enumerateLoop_match_cons target d devs idx1 hp2 hm] at hts
        rw [Option.map_eq_some'] at hts
        obtain ⟨ts0, hts0, rfl⟩ := hts
        rcases List.mem_cons.mp ht with rfl | htl
        · exact ⟨0, d, by simp, hm, by simp⟩
        · obtain ⟨k, d0, hk, hm0, hteq⟩ := ih (idx1 + 1) ts0 t hts0 htl
          refine ⟨k + 1, d0, by simpa using hk, hm0, ?_⟩
          rw [hteq]
          have harr : idx1 + 1 + k = idx1 + (k + 1) := by omega
          rw [harr]
      · have hm2 : deviceMatches d = false := by
          simp only [Bool.not_eq_true] at hm
          exact hm
        rw [enumerateLoop_skip_cons target d devs idx1 hm2 hp2] at hts
        obtain ⟨k, d0, hk, hm0, hteq⟩ := ih (idx1 + 1) ts t hts ht
        refine ⟨k + 1, d0, by simpa using hk, hm0, ?_⟩
        rw [hteq]
        have harr : idx1 + 1 + k = idx1 + (k + 1) := by omega
        rw [harr]

theorem enumerateLoop_single_match (target : String) (devs : List DeviceEnv) :
    ∀ (idx1 i : Nat) (d : DeviceEnv),
      devs[i]? = some d → deviceMatches d = true →
      (∀ (j : Nat) (dj : DeviceEnv), j ≠ i → devs[j]? = some dj →
        deviceMatches dj = false ∧ devicePanics dj = false) →
      enumerateLoop target devs idx1
        = some [⟨builtPath target d, d.handle, idx1 + i⟩] := by
  induction devs with
  | nil => intro idx1 i d hd _ _; simp at hd
  | cons e devs ih =>
    intro idx1 i d hd hm hrest
    cases i with
    | zero =>
      simp only [List.getElem?_cons_zero, Option.some.injEq] at hd
      subst hd
      rw [enumerateLoop_match_cons target e devs idx1
        (deviceMatches_not_panics e hm) hm]
      have hskip : ∀ x ∈ devs, deviceMatches x = false ∧ devicePanics x = false := by
        intro x hx
        obtain ⟨j, hj, hjx⟩ := List.getElem_of_mem hx
        exact hrest (j + 1) x (by omega) (by simp [List.getElem?_eq_getElem hj, hjx])
      rw [enumerateLoop_all_skip target devs (idx1 + 1) hskip]
      simp
    | succ k =>
      simp only [List.getElem?_cons_succ] at hd
      have he : deviceMatches e = false ∧ devicePanics e = false :=
        hrest 0 e (by omega) (by simp)
      rw [enumerateLoop_skip_cons target e devs idx1 he.1 he.2]
      have hrest2 : ∀ (j : Nat) (dj : DeviceEnv), j ≠ k → devs[j]? = some dj →
          deviceMatches dj = false ∧ devicePanics dj = false := by
        intro j dj hj hjd
        exact hrest (j + 1) dj (by omega) (by simpa using hjd)
      rw [ih (idx1 + 1) k d hd hm hrest2]
      have harr : idx1 + 1 + k = idx1 + (k + 1) := by omega
      rw [harr]

theorem fst_enumerateLoopLog (target : String) (devs : List DeviceEnv) :
    ∀ idx1 : Nat, (enumerateLoopLog target devs idx1).1 = enumerateLoop target devs idx1 := by
  induction devs with
  | nil => intro idx1; rfl
  | cons d rest ih =>
    intro idx1
    cases hp : probeDevice target idx1 d with
    | none => simp [enumerateLoopLog, enumerateLoop, hp]
    | some r =>
      cases r with
      | none => simp [enumerateLoopLog, enumerateLoop, hp, ih]
      | some t => simp [enumerateLoopLog, enumerateLoop, hp, ih]

theorem snd_enumerateLoopLog (target : String) (devs : List DeviceEnv) :
    ∀ (idx1 : Nat) (ts : List BootTarget),
      (enumerateLoopLog target devs idx1).1 = some ts →
      (enumerateLoopLog target devs idx1).2 = List.range' idx1 devs.length := by
  induction devs with
  | nil => intro idx1 ts _; rfl
  | cons d rest ih =>
    intro idx1 ts h1
    cases hp : probeDevice target idx1 d with
    | none => rw [enumerateLoopLog, hp] at h1; exact absurd h1 (by simp)
    | some r =>
      cases r with
      | none =>
        rw [enumerateLoopLog, hp] at h1 ⊢
        simp only [List.length_cons, List.range'_succ]
        exact congrArg (idx1 :: ·) (ih (idx1 + 1) ts h1)
      | some t =>
        rw [enumerateLoopLog, hp] at h1 ⊢
        simp only [Option.map_eq_some'] at h1
        obtain ⟨ts0, hts0, _⟩ := h1
        simp only [List.length_cons, List.range'_succ]
        exact congrArg (idx1 :: ·) (ih (idx1 + 1) ts0 hts0)

theorem snd_enumerateLoopLog_prefix (target : String) (devs : List DeviceEnv) :
    ∀ idx1 : Nat, ∃ m : Nat, m ≤ devs.length ∧
      (enumerateLoopLog target devs idx1).2 = List.range' idx1 m := by
  induction devs with
  | nil => intro idx1; exact ⟨0, Nat.le_refl 0, rfl⟩
  | cons d rest ih =>
    intro idx1
    cases hp : probeDevice target idx1 d with
    | none =>
      refine ⟨1, by simp, ?_⟩
      rw [enumerateLoopLog, hp]
      rfl
    | some r =>
      obtain ⟨m, hm, hlog⟩ := ih (idx1 + 1)
      cases r with
      | none =>
        refine ⟨m + 1, by simp [Nat.succ_le_succ hm], ?_⟩
        rw [enumerateLoopLog, hp]
        simp only [List.range'_succ]
        exact congrArg (idx1 :: ·) hlog
      | some t =>
        refine ⟨m + 1, by simp [Nat.succ_le_succ hm], ?_⟩
        rw [enumerateLoopLog, hp]
        simp only [List.range'_succ]
        exact congrArg (idx1 :: ·) hlog

theorem selLoop_append_ignored (n : Nat) (pre : List ReadEvent) :
    ∀ (evs : List ReadEvent) (w : Nat),
      (∀ e ∈ pre, ignoredKey n e = true) →
      selLoop n (pre ++ evs) w = selLoop n evs w := by
  induction pre with
  | nil => intro evs w _; rfl
  | cons e pre ih =>
    intro evs w h
    rw [List.cons_append,
      selLoop_cons_ignored n e (pre ++ evs) w (h e (List.mem_cons_self e pre))]
    exact ih evs w fun x hx => h x (List.mem_cons_of_mem e hx)

/-- Claim C3: with more than one candidate, after any number of ignored
keys (non-digit, non-Enter, non-Escape keys, or digits outside [1, n]) a
digit key k with 1 ≤ k ≤ n selects candidate k (0-based index k - 1)
immediately, for any remaining events; and an ignored key leaves the loop
state, including the accumulated wait, completely unchanged. -/
theorem digit_selects_candidate :
    (∀ (n : Nat) (pre rest : List ReadEvent) (c : Char) (d w : Nat),
      1 < n →
      (∀ e ∈ pre, ignoredKey n e = true) →
      charDigit c = some d → 1 ≤ d → d ≤ n →
      selLoop n (pre ++ ReadEvent.key (Key.printable c) :: rest) w
        = some (SelResult.select (d - 1))) ∧
    (∀ (n : Nat) (e : ReadEvent) (evs : List ReadEvent) (w : Nat),
      ignoredKey n e = true →
      selLoop n (e :: evs) w = selLoop n evs w) := by
  constructor
  · intro n pre rest c d w _ hpre hc h1 h2
    rw [selLoop_append_ignored n pre (ReadEvent.key (Key.printable c) :: rest) w hpre]
    simp [selLoop, hc, h1, h2]
  · intro n e evs w h
    exact selLoop_cons_ignored n e evs w h

/-- Witness for C3 at n = 3: the ignored keys x, 9 (out of range) and a
special key are skipped and digit 2 selects candidate 2 (index 1); an
ignored key alone changes nothing. -/
theorem digit_selects_candidate_witness :
    selLoop 3 [ReadEvent.key (Key.printable 'x'), ReadEvent.key (Key.printable '9'),
      ReadEvent.key Key.special, ReadEvent.key (Key.printable '2')] 0
      = some (SelResult.select 1) ∧
    selLoop 3 [ReadEvent.key Key.special, ReadEvent.readErr] 0
      = selLoop 3 [ReadEvent.readErr] 0 :=
  ⟨digit_selects_candidate.1 3
      [ReadEvent.key (Key.printable 'x'), ReadEvent.key (Key.printable '9'),
        ReadEvent.key Key.special] [] '2' 2 0 (by decide) (by decide) (by decide)
      (by decide) (by decide),
    digit_selects_candidate.2 3 (ReadEvent.key Key.special) [ReadEvent.readErr] 0
      (by decide)⟩

/-- Claim C4: with more than one candidate, once the accumulated wait has
reached the 5000 ms timeout through 10 ms polls (500 empty polls seen, so
the next empty poll observes waited ≥ timeout), the default candidate
(index 0, ordinal 1) is selected; and a key-read failure at any point
before the timeout likewise selects the default and stops waiting. -/
theorem timeout_and_read_failure_select_default :
    (∀ (n : Nat) (pre rest : List ReadEvent),
      1 < n →
      (∀ e ∈ pre, nonDeciding n e = true) →
      noKeyCount pre = 500 →
      selLoop n (pre ++ ReadEvent.noKey :: rest) 0 = some (SelResult.select 0)) ∧
    (∀ (n : Nat) (pre rest : List ReadEvent),
      1 < n →
      (∀ e ∈ pre, nonDeciding n e = true) →
      noKeyCount pre ≤ 500 →
      selLoop n (pre ++ ReadEvent.readErr :: rest) 0 = some (SelResult.select 0)) := by
  constructor
  · intro n pre rest _ hpre hcnt
    rw [selLoop_append_nonDeciding n pre (ReadEvent.noKey :: rest) 0 hpre
      (by simp only [hcnt, pollIntervalUs, timeoutUs]; omega)]
    exact selLoop_cons_noKey_timeout n rest _
      (by simp only [hcnt, pollIntervalUs, timeoutUs]; omega)
  · intro n pre rest _ hpre hcnt
    rw [selLoop_append_nonDeciding n pre (ReadEvent.readErr :: rest) 0 hpre
      (by simp only [pollIntervalUs, timeoutUs]; omega)]
    rfl

set_option maxRecDepth 8000 in
/-- Witness for C4 at n = 2: 500 empty polls followed by one more empty
poll select the default, and an immediate read failure after one ignored
key selects the default. -/
theorem timeout_and_read_failure_select_default_witness :
    selLoop 2 (List.replicate 500 ReadEvent.noKey ++ [ReadEvent.noKey]) 0
      = some (SelResult.select 0) ∧
    selLoop 2 [ReadEvent.key Key.special, ReadEvent.readErr] 0
      = some (SelResult.select 0) :=
  ⟨timeout_and_read_failure_select_default.1 2 (List.replicate 500 ReadEvent.noKey)
      [] (by decide) (by decide) (by decide),
    timeout_and_read_failure_select_default.2 2 [ReadEvent.key Key.special] []
      (by decide) (by decide) (by decide)⟩

/-- Claim C9: candidate resolution is a deterministic function of the
candidate count and the observed sequence of read results (which fixes the
elapsed poll time): two runs over the same inputs decide the same way. -/
theorem resolve_deterministic :
    ∀ (n : Nat) (events : List ReadEvent) (r₁ r₂ : Option SelResult),
      resolveSel n events = r₁ → resolveSel n events = r₂ → r₁ = r₂ := by
  intro n events r₁ r₂ h1 h2
  rw [← h1, ← h2]

/-- Witness for C9: two runs on three candidates with the same stream both
select candidate 2. -/
theorem resolve_deterministic_witness :
    (some (SelResult.select 1) : Option SelResult) = some (SelResult.select 1) :=
  resolve_deterministic 3
    [ReadEvent.noKey, ReadEvent.key (Key.printable '2')]
    (some (SelResult.select 1)) (some (SelResult.select 1)) (by decide) (by decide)

/-- Claim C2: with more than one boot-manager candidate, an ESCAPE read
after only non-deciding events (ignored keys and at most 500 empty polls,
so the timeout has not yet fired) aborts the whole run with the fatal
status, and the boot-manager load_image call count of that run is zero. -/
theorem escape_aborts_before_bootmgr_load :
    ∀ (env : SysEnv) (hvp : RoutablePath) (cands : List BootTarget)
      (pre rest : List ReadEvent),
      env.initOk = true →
      find_hypervisor env.hvDisc = some (some hvp) →
      env.hvLoadOk = true → env.hvStartOk = true →
      find_all_windows_boot_managers env.bmDisc = some cands →
      1 < cands.length →
      env.events = pre ++ ReadEvent.key Key.escape :: rest →
      (∀ e ∈ pre, nonDeciding cands.length e = true) →
      noKeyCount pre ≤ 500 →
      runMain env = some ⟨Status.aborted, 1, 1, 0, 0, some hvp, none, none⟩ := by
  intro env hvp cands pre rest h1 h2 h3 h4 h5 hlen hev hpre hcnt
  have hne : cands.isEmpty = false := by
    cases cands
    · simp at hlen
    · rfl
  have hn1 : ¬ cands.length = 1 := by omega
  have hsel : resolveSel cands.length env.events = some SelResult.abort := by
    rw [resolveSel, if_neg hn1, hev,
      selLoop_append_nonDeciding cands.length pre
        (ReadEvent.key Key.escape :: rest) 0 hpre
        (by simp only [pollIntervalUs, timeoutUs]; omega)]
    rfl
  simp [runMain, h1, h2, h3, h4, h5, hne, hsel]

/-- Witness for C2: two candidates, one ignored special key, then ESCAPE;
the run aborts with no boot-manager load call. -/
theorem escape_aborts_before_bootmgr_load_witness :
    runMain ⟨true, ⟨true, [devGood]⟩, ⟨true, [devGood, devTwo]⟩,
        [ReadEvent.key Key.special, ReadEvent.key Key.escape],
        true, true, true, true⟩
      = some ⟨Status.aborted, 1, 1, 0, 0,
          some (builtPath HYPERVISOR_PATH devGood), none, none⟩ :=
  escape_aborts_before_bootmgr_load
    ⟨true, ⟨true, [devGood]⟩, ⟨true, [devGood, devTwo]⟩,
      [ReadEvent.key Key.special, ReadEvent.key Key.escape], true, true, true, true⟩
    (builtPath HYPERVISOR_PATH devGood)
    [⟨builtPath WINDOWS_BOOT_MANAGER_PATH devGood, 7, 1⟩,
      ⟨builtPath WINDOWS_BOOT_MANAGER_PATH devTwo, 11, 2⟩]
    [ReadEvent.key Key.special] []
    rfl (by decide) rfl rfl (by decide) (by decide) rfl (by decide) (by decide)

/-- Claim C5: a failed load_image is fatal and start_image is never
reached for that stage: a hypervisor load failure yields exactly one
hypervisor load call, no start call, no boot-manager call, and the fatal
status; a boot-manager load failure after a resolved selection yields
exactly one boot-manager load call, no boot-manager start call, and the
fatal status.  The recorded single load call per stage also shows there is
no retry and no fallback image. -/
theorem load_failure_aborts_without_start :
    (∀ (env : SysEnv) (hvp : RoutablePath),
      env.initOk = true →
      find_hypervisor env.hvDisc = some (some hvp) →
      env.hvLoadOk = false →
      runMain env = some ⟨Status.aborted, 1, 0, 0, 0, some hvp, none, none⟩) ∧
    (∀ (env : SysEnv) (hvp : RoutablePath) (cands : List BootTarget) (i : Nat),
      env.initOk = true →
      find_hypervisor env.hvDisc = some (some hvp) →
      env.hvLoadOk = true → env.hvStartOk = true →
      find_all_windows_boot_managers env.bmDisc = some cands →
      cands.isEmpty = false →
      resolveSel cands.length env.events = some (SelResult.select i) →
      env.bmLoadOk = false →
      runMain env = some ⟨Status.aborted, 1, 1, 1, 0, some hvp,
        (cands[i]?).map (fun t => t.device_path), some i⟩) := by
  constructor
  · intro env hvp h1 h2 h3
    simp [runMain, h1, h2, h3]
  · intro env hvp cands i h1 h2 h3 h4 h5 h6 h7 h8
    simp [runMain, h1, h2, h3, h4, h5, h6, h7, h8]

/-- Witness for C5: a hypervisor load failure aborts with no start call,
and a boot-manager load failure on a single auto-selected candidate aborts
with no boot-manager start call. -/
theorem load_failure_aborts_without_start_witness :
    runMain ⟨true, ⟨true, [devGood]⟩, ⟨true, []⟩, [], false, false, false, false⟩
      = some ⟨Status.aborted, 1, 0, 0, 0,
          some (builtPath HYPERVISOR_PATH devGood), none, none⟩ ∧
    runMain ⟨true, ⟨true, [devGood]⟩, ⟨true, [devGood]⟩, [], true, true, false, false⟩
      = some ⟨Status.aborted, 1, 1, 1, 0,
          some (builtPath HYPERVISOR_PATH devGood),
          some (builtPath WINDOWS_BOOT_MANAGER_PATH devGood), some 0⟩ :=
  ⟨load_failure_aborts_without_start.1
      ⟨true, ⟨true, [devGood]⟩, ⟨true, []⟩, [], false, false, false, false⟩
      (builtPath HYPERVISOR_PATH devGood) rfl (by decide) rfl,
    load_failure_aborts_without_start.2
      ⟨true, ⟨true, [devGood]⟩, ⟨true, [devGood]⟩, [], true, true, false, false⟩
      (builtPath HYPERVISOR_PATH devGood)
      [⟨builtPath WINDOWS_BOOT_MANAGER_PATH devGood, 7, 1⟩] 0
      rfl (by decide) rfl rfl (by decide) rfl (by decide) rfl⟩

/-- Counterexample to C1 as stated: on a device whose RoutablePath
construction fails while copying an existing routing node (the unwrap in
images.rs line 102), enumeration does not skip the device and continue; it
panics, so no result list is produced even though the following device
would match. -/
theorem copy_node_failure_panics_counterexample :
    enumerate_device_paths HYPERVISOR_PATH ⟨true, [devCopyFail, devGood]⟩ = none := by
  decide

/-- Claim C1 (amended): a failure while appending the terminal file-name
node or finalizing the path skips that device non-fatally and enumeration
continues with the next device; but a failure while copying an existing
routing node is unwrapped by the source and panics instead of skipping. -/
theorem terminal_build_failure_skips_device :
    ∀ (target : String) (d : DeviceEnv) (nodes : List Nat)
      (rest : List DeviceEnv) (idx1 : Nat),
      d.fsOpens = true → d.volumeOpens = true → d.fileOpens = true →
      d.devicePathCap = some nodes →
      (nodes = [] ∨ d.copyNodesOk = true) →
      d.finalBuildOk = false →
      enumerateLoop target (d :: rest) idx1 = enumerateLoop target rest (idx1 + 1) := by
  intro target d nodes rest idx1 h1 h2 h3 h4 h5 h6
  apply enumerateLoop_skip_cons
  · simp [deviceMatches, h1, h2, h3, h4, h6]
  · rcases h5 with h5 | h5
    · subst h5
      simp [devicePanics, h4]
    · simp [devicePanics, h4, h5]

/-- Witness for the amended C1: a device failing only at the terminal node
push is skipped and the next device still matches. -/
theorem terminal_build_failure_skips_device_witness :
    enumerateLoop HYPERVISOR_PATH [devNoFinal, devGood] 1
      = enumerateLoop HYPERVISOR_PATH [devGood] 2 :=
  terminal_build_failure_skips_device HYPERVISOR_PATH devNoFinal [5] [devGood] 1
    rfl rfl rfl rfl (Or.inr rfl) rfl

/-- Claim C6: when device i (0-based position in the platform enumeration
order) is the only one whose probe succeeds and every other device is
skipped, discovery returns exactly one BootTarget whose ordinal is the
1-based position i + 1; and in general every recorded BootTarget carries
ordinal = 1-based enumeration position of a fully matching device. -/
theorem discover_single_match_ordinal :
    (∀ (target : String) (env : DiscoveryEnv) (i : Nat) (d : DeviceEnv),
      env.locateOk = true →
      env.devices[i]? = some d →
      deviceMatches d = true →
      (∀ (j : Nat) (dj : DeviceEnv), j ≠ i → env.devices[j]? = some dj →
        deviceMatches dj = false ∧ devicePanics dj = false) →
      enumerate_device_paths target env
        = some [⟨builtPath target d, d.handle, i + 1⟩]) ∧
    (∀ (target : String) (env : DiscoveryEnv) (ts : List BootTarget) (t : BootTarget),
      enumerate_device_paths target env = some ts → t ∈ ts →
      ∃ (k : Nat) (d : DeviceEnv), env.devices[k]? = some d ∧
        deviceMatches d = true ∧ t.handle_index = k + 1) := by
  constructor
  · intro target env i d hloc hi hm hrest
    rw [enumerate_device_paths, if_pos hloc,
      enumerateLoop_single_match target env.devices 1 i d hi hm hrest]
    have harr : 1 + i = i + 1 := by omega
    rw [harr]
  · intro target env ts t hts ht
    rw [enumerate_device_paths] at hts
    by_cases hloc : env.locateOk = true
    · rw [if_pos hloc] at hts
      obtain ⟨k, d, hk, hm, hteq⟩ := mem_enumerateLoop_spec target env.devices 1 ts t hts ht
      exact ⟨k, d, hk, hm, by rw [hteq]; simp [Nat.add_comm]⟩
    · rw [if_neg hloc] at hts
      simp only [Option.some.injEq] at hts
      subst hts
      exact absurd ht (List.not_mem_nil t)

/-- Witness for C6: of two devices only the second matches, and the single
returned target carries ordinal 2. -/
theorem discover_single_match_ordinal_witness :
    enumerate_device_paths WINDOWS_BOOT_MANAGER_PATH ⟨true, [devNoFile, devGood]⟩
      = some [⟨builtPath WINDOWS_BOOT_MANAGER_PATH devGood, 7, 2⟩] :=
  discover_single_match_ordinal.1 WINDOWS_BOOT_MANAGER_PATH
    ⟨true, [devNoFile, devGood]⟩ 1 devGood rfl (by decide) (by decide)
    (by
      intro j dj hj hjd
      match j, hjd with
      | 0, hjd =>
        rw [show ([devNoFile, devGood][(0 : Nat)]? = some devNoFile) from rfl,
          Option.some.injEq] at hjd
        subst hjd
        exact ⟨by decide, by decide⟩
      | 1, hjd => exact absurd rfl hj
      | (m + 2), hjd => simp at hjd)

/-- Claim C7: discovery that finds nothing returns the empty sequence, not
an error: both a failed handle search and a device set where every probe
is skipped yield the empty result, on which the first-match lookup yields
none; and the sequencer treats the empty hypervisor discovery as fatal
before any load, returning the fatal status with zero load_image calls of
either stage. -/
theorem discovery_empty_nonfatal_caller_aborts :
    (∀ (target : String) (env : DiscoveryEnv),
      (env.locateOk = false ∨
        (∀ d ∈ env.devices, deviceMatches d = false ∧ devicePanics d = false)) →
      enumerate_device_paths target env = some [] ∧
      find_device_path target env = some none) ∧
    (∀ env : SysEnv,
      env.initOk = true →
      find_hypervisor env.hvDisc = some none →
      runMain env = some ⟨Status.aborted, 0, 0, 0, 0, none, none, none⟩) := by
  constructor
  · intro target env h
    have hempty : enumerate_device_paths target env = some [] := by
      rcases h with h | h
      · rw [enumerate_device_paths, if_neg (by simp [h])]
      · rw [enumerate_device_paths]
        by_cases hloc : env.locateOk = true
        · rw [if_pos hloc]
          exact enumerateLoop_all_skip target env.devices 1 h
        · rw [if_neg hloc]
    exact ⟨hempty, by simp [find_device_path, hempty]⟩
  · intro env h1 h2
    simp [runMain, h1, h2]

/-- Witness for C7: one device without the file yields the empty result
and a none first match; a run whose hypervisor search comes up empty
aborts with zero load calls. -/
theorem discovery_empty_nonfatal_caller_aborts_witness :
    (enumerate_device_paths HYPERVISOR_PATH ⟨true, [devNoFile]⟩ = some [] ∧
      find_device_path HYPERVISOR_PATH ⟨true, [devNoFile]⟩ = some none) ∧
    runMain ⟨true, ⟨true, [devNoFile]⟩, ⟨true, []⟩, [], true, true, true, true⟩
      = some ⟨Status.aborted, 0, 0, 0, 0, none, none, none⟩ :=
  ⟨discovery_empty_nonfatal_caller_aborts.1 HYPERVISOR_PATH ⟨true, [devNoFile]⟩
      (Or.inr (by decide)),
    discovery_empty_nonfatal_caller_aborts.2
      ⟨true, ⟨true, [devNoFile]⟩, ⟨true, []⟩, [], true, true, true, true⟩
      rfl (by decide)⟩

/-- Claim C10: the hypervisor lookup takes the head of the enumerated
target sequence, with no selection menu and no timeout: whenever
enumeration completes, find_hypervisor returns the device path of the
first match in platform order, or none when the sequence is empty; in
particular extra matches beyond the first are never consulted. -/
theorem find_hypervisor_returns_first_match :
    (∀ (env : DiscoveryEnv) (ts : List BootTarget),
      enumerate_device_paths HYPERVISOR_PATH env = some ts →
      find_hypervisor env = some ((ts.map fun t => t.device_path).head?)) ∧
    (∀ (env : DiscoveryEnv) (t : BootTarget) (rest : List BootTarget),
      enumerate_device_paths HYPERVISOR_PATH env = some (t :: rest) →
      find_hypervisor env = some (some t.device_path)) := by
  constructor
  · intro env ts h
    simp [find_hypervisor, find_device_path, h]
  · intro env t rest h
    simp [find_hypervisor, find_device_path, h]

/-- Witness for C10: with two matching devices the hypervisor lookup
returns the path of the first one. -/
theorem find_hypervisor_returns_first_match_witness :
    find_hypervisor ⟨true, [devGood, devTwo]⟩
      = some (some (builtPath HYPERVISOR_PATH devGood)) ∧
    find_hypervisor ⟨true, [devGood, devTwo]⟩
      = some (some (builtPath HYPERVISOR_PATH devGood)) :=
  ⟨by
      have h := find_hypervisor_returns_first_match.1 ⟨true, [devGood, devTwo]⟩
        [⟨builtPath HYPERVISOR_PATH devGood, 7, 1⟩,
          ⟨builtPath HYPERVISOR_PATH devTwo, 11, 2⟩] (by decide)
      simpa using h,
    find_hypervisor_returns_first_match.2 ⟨true, [devGood, devTwo]⟩
      ⟨builtPath HYPERVISOR_PATH devGood, 7, 1⟩
      [⟨builtPath HYPERVISOR_PATH devTwo, 11, 2⟩] (by decide)⟩

/-- Counterexample to C8 as stated: each device is NOT probed exactly
once in every discovery call.  On the two-device set whose first device
panics in the node-copy fold (images.rs line 102), the probe log is just
[1]: the loop unwinds at device 1 and device 2 is probed zero times. -/
theorem panic_skips_probing_counterexample :
    (enumerate_device_paths_log WINDOWS_BOOT_MANAGER_PATH
        ⟨true, [devCopyFail, devGood]⟩).2 = [1] ∧
    (enumerate_device_paths_log WINDOWS_BOOT_MANAGER_PATH
        ⟨true, [devCopyFail, devGood]⟩).2.count 2 = 0 := by
  decide

/-- Claim C8 (amended): discovery never records a target for a device on
which any probe step errored: every returned BootTarget comes from a
device whose probe succeeded end to end, and lies at the position its
ordinal names; the probe log of an enumeration that completes without a
node-copy panic is exactly the indices 1..n in order, so each device is
then probed exactly once; and unconditionally no device is ever probed
more than once per discovery call (a panic stops probing at the offending
device, leaving later devices unprobed). -/
theorem discover_excludes_errored_probes_once :
    (∀ (target : String) (env : DiscoveryEnv) (ts : List BootTarget) (t : BootTarget),
      enumerate_device_paths target env = some ts → t ∈ ts →
      ∃ d : DeviceEnv, env.devices[t.handle_index - 1]? = some d ∧
        deviceMatches d = true ∧
        t = ⟨builtPath target d, d.handle, t.handle_index⟩) ∧
    (∀ (target : String) (env : DiscoveryEnv) (ts : List BootTarget),
      env.locateOk = true →
      (enumerate_device_paths_log target env).1 = some ts →
      (enumerate_device_paths_log target env).2
          = List.range' 1 env.devices.length ∧
      ∀ i : Nat, 1 ≤ i → i ≤ env.devices.length →
        (enumerate_device_paths_log target env).2.count i = 1) ∧
    (∀ (target : String) (env : DiscoveryEnv) (i : Nat),
      (enumerate_device_paths_log target env).2.count i ≤ 1) := by
  refine ⟨?_, ?_, ?_⟩
  · intro target env ts t hts ht
    rw [enumerate_device_paths] at hts
    by_cases hloc : env.locateOk = true
    · rw [if_pos hloc] at hts
      obtain ⟨k, d, hk, hm, hteq⟩ := mem_enumerateLoop_spec target env.devices 1 ts t hts ht
      refine ⟨d, ?_, hm, ?_⟩
      · rw [hteq]
        have harr : 1 + k - 1 = k := by omega
        simp only [harr]
        exact hk
      · rw [hteq]
    · rw [if_neg hloc] at hts
      simp only [Option.some.injEq] at hts
      subst hts
      exact absurd ht (List.not_mem_nil t)
  · intro target env ts hloc h1
    rw [enumerate_device_paths_log, if_pos hloc] at h1 ⊢
    have hlog := snd_enumerateLoopLog target env.devices 1 ts h1
    refine ⟨hlog, ?_⟩
    intro i hi1 hi2
    rw [hlog]
    exact List.count_eq_one_of_mem (List.nodup_range' 1 env.devices.length)
      (List.mem_range'_1.mpr ⟨hi1, by omega⟩)
  · intro target env i
    rw [enumerate_device_paths_log]
    by_cases hloc : env.locateOk = true
    · rw [if_pos hloc]
      obtain ⟨m, _, hlog⟩ := snd_enumerateLoopLog_prefix target env.devices 1
      rw [hlog]
      exact List.nodup_iff_count_le_one.mp (List.nodup_range' 1 m) i
    · rw [if_neg hloc]
      simp

/-- Witness for C8: in a two-device set where only the second device
matches, the recorded target sits at its ordinal position with a fully
successful probe, and the probe log is [1, 2] with each index hit once;
on the panicking set the at-most-once bound still holds for device 1. -/
theorem discover_excludes_errored_probes_once_witness :
    (∃ d : DeviceEnv, [devNoFile, devGood][(2 : Nat) - 1]? = some d ∧
      deviceMatches d = true ∧
      (⟨builtPath WINDOWS_BOOT_MANAGER_PATH devGood, 7, 2⟩ : BootTarget)
        = ⟨builtPath WINDOWS_BOOT_MANAGER_PATH d, d.handle, 2⟩) ∧
    ((enumerate_device_paths_log WINDOWS_BOOT_MANAGER_PATH
        ⟨true, [devNoFile, devGood]⟩).2 = List.range' 1 2 ∧
      ∀ i : Nat, 1 ≤ i → i ≤ 2 →
        (enumerate_device_paths_log WINDOWS_BOOT_MANAGER_PATH
          ⟨true, [devNoFile, devGood]⟩).2.count i = 1) ∧
    (enumerate_device_paths_log WINDOWS_BOOT_MANAGER_PATH
        ⟨true, [devCopyFail, devGood]⟩).2.count 1 ≤ 1 :=
  ⟨discover_excludes_errored_probes_once.1 WINDOWS_BOOT_MANAGER_PATH
      ⟨true, [devNoFile, devGood]⟩
      [⟨builtPath WINDOWS_BOOT_MANAGER_PATH devGood, 7, 2⟩]
      ⟨builtPath WINDOWS_BOOT_MANAGER_PATH devGood, 7, 2⟩
      (by decide) (by decide),
    discover_excludes_errored_probes_once.2.1 WINDOWS_BOOT_MANAGER_PATH
      ⟨true, [devNoFile, devGood]⟩
      [⟨builtPath WINDOWS_BOOT_MANAGER_PATH devGood, 7, 2⟩]
      rfl (by decide),
    discover_excludes_errored_probes_once.2.2 WINDOWS_BOOT_MANAGER_PATH
      ⟨true, [devCopyFail, devGood]⟩ 1⟩
